import Mathlib

/-!
Verification of the iced renderer dispatch layer.

The repository code under verification (src/renderer/src/lib.rs and
src/renderer/src/geometry.rs) is a backend-selection shim: `Renderer`,
`Frame` and `Geometry` are tagged unions over two concrete graphics
backends (the software rasterizer `iced_tiny_skia` and the GPU backend
`iced_wgpu`), and every operation dispatches to whichever variant is
active. The two backend crates belong to the same repository but are not
under src/, so their frame/renderer internals are modelled from the
specification; every such definition carries a doc comment starting with
"Modelled from the spec:". The dispatch layer itself is translated
directly from the source.

Scalars (`f32` in the source) are modelled as rationals: the dispatch
layer performs no floating-point arithmetic itself, and the only scalar
computation the claims touch (halving a size for `center`) is exact in
binary floating point.
-/

namespace Iced

/-- Scalar values: the model of the source's f32 coordinates. -/
abbrev Scalar := ℚ

/-- Model of `core::Size`: a width/height pair. -/
structure Size where
  width : Scalar
  height : Scalar
deriving DecidableEq, Repr

/-- Model of `core::Point`: a position in 2D space. -/
structure Point where
  x : Scalar
  y : Scalar
deriving DecidableEq, Repr

/-- Model of `core::Vector`: a 2D displacement. -/
structure Vector where
  x : Scalar
  y : Scalar
deriving DecidableEq, Repr

/-- Model of `core::Rectangle`: an axis-aligned rectangle. -/
structure Rectangle where
  x : Scalar
  y : Scalar
  width : Scalar
  height : Scalar
deriving DecidableEq, Repr

/-- Size of a rectangle, as `Rectangle::size()` in the core crate. -/
def Rectangle.size (r : Rectangle) : Size :=
  ⟨r.width, r.height⟩

/-- Abstract token for `graphics::geometry::Path`: its contents are backend-internal. -/
structure Path where
  data : Nat
deriving DecidableEq, Repr

/-- Abstract token for `graphics::geometry::Fill`. -/
structure Fill where
  data : Nat
deriving DecidableEq, Repr

/-- Abstract token for `graphics::geometry::Stroke`. -/
structure Stroke where
  data : Nat
deriving DecidableEq, Repr

/-- Abstract token for `graphics::geometry::Text`. -/
structure Text where
  data : Nat
deriving DecidableEq, Repr

/-- Abstract token for `graphics::Mesh`. -/
structure Mesh where
  data : Nat
deriving DecidableEq, Repr

/-- Abstract token for `core::renderer::Quad`. -/
structure Quad where
  data : Nat
deriving DecidableEq, Repr

/-- Abstract token for `core::Background`. -/
structure Background where
  data : Nat
deriving DecidableEq, Repr

/-- Abstract token for `core::Transformation` (an affine matrix, backend-internal). -/
structure Transformation where
  data : Nat
deriving DecidableEq, Repr

/-- Abstract token for a custom wgpu pipeline primitive
(`wgpu::primitive::pipeline::Primitive`). -/
structure PipelinePrimitive where
  data : Nat
deriving DecidableEq, Repr

/-- Modelled from the spec: one transform operation composed onto a frame's
current transform ("`translate/rotate/scale/scale_nonuniform` — compose onto
the current transform"). The numeric effect of the composition is
backend-internal, so a transform is recorded as the free sequence of the
operations composed onto it. -/
inductive TOp
  | translate (v : Vector)
  | rotate (angle : Scalar)
  | scale (factor : Scalar)
  | scaleNonuniform (v : Vector)
deriving DecidableEq, Repr

/-- Modelled from the spec: a frame transform is the sequence of operations
composed onto the identity (the empty sequence). -/
abbrev Transform := List TOp

/-- Abstract token for a custom primitive of the wgpu backend
(`iced_wgpu::primitive::Custom`): either a mesh or a custom shader primitive. -/
inductive CustomPrim
  | mesh (m : Mesh)
  | shader (bounds : Rectangle) (p : PipelinePrimitive)
deriving DecidableEq, Repr

/-- Modelled from the spec: a backend primitive (`iced_tiny_skia::Primitive` /
`iced_wgpu::Primitive`), the immutable serialized output of drawing. Draw
commands record the transform current when they were issued; `clip` is the
composite produced by merging a clipped sub-frame into a parent at an origin
("content outside `region`'s size is clipped away"); `clipRect` is the
composite produced by ending a renderer layer against bounds; `transformed`
is the composite produced by ending a transformation scope. -/
inductive Prim
  | fillPath (path : Path) (style : Fill) (t : Transform)
  | fillRectangle (topLeft : Point) (rectSize : Size) (style : Fill) (t : Transform)
  | strokePath (path : Path) (style : Stroke) (t : Transform)
  | fillText (text : Text) (t : Transform)
  | quad (q : Quad) (background : Background)
  | custom (c : CustomPrim)
  | group (ps : List Prim)
  | clip (origin : Point) (csize : Size) (content : Prim)
  | clipRect (bounds : Rectangle) (content : Prim)
  | transformed (t : Transformation) (content : Prim)

/-- Pointwise membership of a point in the half-open rectangle with the given
origin and size. -/
def Point.inRegion (pt : Point) (origin : Point) (s : Size) : Bool :=
  decide (origin.x ≤ pt.x) && decide (pt.x < origin.x + s.width) &&
  decide (origin.y ≤ pt.y) && decide (pt.y < origin.y + s.height)

/-- Difference of two points, used to map a parent-space point into the local
space of a clipped sub-frame composited at an origin. -/
def Point.minus (pt : Point) (origin : Point) : Point :=
  ⟨pt.x - origin.x, pt.y - origin.y⟩

/-- Modelled from the spec: an over-approximation of where a primitive can
render. Base draw commands are unconstrained (their rasterization is
backend-internal), a `clip` composite renders only inside its rectangle and
shows its content translated to its origin ("content outside `region`'s size
is clipped away by construction"), and a `clipRect` layer composite renders
only inside its bounds. -/
def Prim.mayPaint (pt : Point) : Prim → Bool
  | .group ps => ps.attach.any (fun q => Prim.mayPaint pt q.1)
  | .clip origin csize content =>
      pt.inRegion origin csize && Prim.mayPaint (pt.minus origin) content
  | .clipRect bounds content =>
      pt.inRegion ⟨bounds.x, bounds.y⟩ bounds.size && Prim.mayPaint pt content
  | .transformed _ _ => true
  | .fillPath _ _ _ => true
  | .fillRectangle _ _ _ _ => true
  | .strokePath _ _ _ => true
  | .fillText _ _ => true
  | .quad _ _ => true
  | .custom _ => true
termination_by p => sizeOf p
decreasing_by
  · have h := List.sizeOf_lt_of_mem q.2
    simp only [Prim.group.sizeOf_spec]
    omega
  · simp only [Prim.clip.sizeOf_spec]
    omega
  · simp only [Prim.clipRect.sizeOf_spec]
    omega

namespace Backend

/-- Modelled from the spec (§3, §4.1): the backend geometry frame
(`iced_tiny_skia::geometry::Frame` and `iced_wgpu::geometry::Frame`, both in
this repository but not under src/). Per the spec both backends have the same
shape: a canvas fixed to a `Size` at construction, a private transform stack,
and the recorded primitives. -/
structure Frame where
  size : Size
  transform : Transform
  stack : List Transform
  primitives : List Prim

/-- Modelled from the spec: a fresh frame sized to `s`, with the identity
transform, an empty transform stack and no recorded content. -/
def Frame.new (s : Size) : Frame :=
  ⟨s, [], [], []⟩

/-- Modelled from the spec: pure width query. -/
def Frame.width (f : Frame) : Scalar :=
  f.size.width

/-- Modelled from the spec: pure height query. -/
def Frame.height (f : Frame) : Scalar :=
  f.size.height

/-- Modelled from the spec: "`.center() == (s.width/2, s.height/2)`". -/
def Frame.center (f : Frame) : Point :=
  ⟨f.size.width / 2, f.size.height / 2⟩

/-- Modelled from the spec: "push current transform" — the current transform
is saved on the private stack. -/
def Frame.push_transform (f : Frame) : Frame :=
  { f with stack := f.transform :: f.stack }

/-- Modelled from the spec: "pop transform" — the most recently pushed
transform becomes current again. The spec (§7) states no operation of this
core can fail, so popping with an empty stack is modelled as a no-op. -/
def Frame.pop_transform (f : Frame) : Frame :=
  match f.stack with
  | [] => f
  | t :: rest => { f with transform := t, stack := rest }

/-- Modelled from the spec: fill a path, recording the current transform. -/
def Frame.fill (f : Frame) (path : Path) (style : Fill) : Frame :=
  { f with primitives := f.primitives ++ [Prim.fillPath path style f.transform] }

/-- Modelled from the spec: fill an axis-aligned rectangle. -/
def Frame.fill_rectangle (f : Frame) (topLeft : Point) (s : Size) (style : Fill) : Frame :=
  { f with primitives := f.primitives ++ [Prim.fillRectangle topLeft s style f.transform] }

/-- Modelled from the spec: stroke the outline of a path. -/
def Frame.stroke (f : Frame) (path : Path) (style : Stroke) : Frame :=
  { f with primitives := f.primitives ++ [Prim.strokePath path style f.transform] }

/-- Modelled from the spec: draw glyph-level text. -/
def Frame.fill_text (f : Frame) (text : Text) : Frame :=
  { f with primitives := f.primitives ++ [Prim.fillText text f.transform] }

/-- Modelled from the spec: compose a translation onto the current transform. -/
def Frame.translate (f : Frame) (v : Vector) : Frame :=
  { f with transform := f.transform ++ [TOp.translate v] }

/-- Modelled from the spec: compose a rotation (radians) onto the current transform. -/
def Frame.rotate (f : Frame) (angle : Scalar) : Frame :=
  { f with transform := f.transform ++ [TOp.rotate angle] }

/-- Modelled from the spec: compose a uniform scaling onto the current transform. -/
def Frame.scale (f : Frame) (factor : Scalar) : Frame :=
  { f with transform := f.transform ++ [TOp.scale factor] }

/-- Modelled from the spec: compose a non-uniform scaling onto the current transform. -/
def Frame.scale_nonuniform (f : Frame) (v : Vector) : Frame :=
  { f with transform := f.transform ++ [TOp.scaleNonuniform v] }

/-- Modelled from the spec: "the immutable, serialized result of finishing a
`Frame`" — the recorded primitives as one group. -/
def Frame.into_primitive (f : Frame) : Prim :=
  Prim.group f.primitives

/-- Modelled from the spec: merge a clipped sub-frame into this frame,
"compositing that sub-frame's content back into the parent at that origin";
the composite is clipped to the sub-frame's canvas size. -/
def Frame.clip (f : Frame) (child : Frame) (origin : Point) : Frame :=
  { f with primitives :=
      f.primitives ++ [Prim.clip origin child.size child.into_primitive] }

/-- Modelled from the spec: a backend renderer (`iced_tiny_skia::Renderer` /
`iced_wgpu::Renderer`, in this repository but not under src/), reduced to the
draw state it accumulates. -/
structure Renderer where
  primitives : List Prim

/-- Modelled from the spec: record one primitive into the accumulated draw state. -/
def Renderer.draw_primitive (r : Renderer) (p : Prim) : Renderer :=
  ⟨r.primitives ++ [p]⟩

/-- Modelled from the spec: "begins an isolated drawing layer" — the
primitives accumulated so far are handed back to the caller and recording
restarts from empty. -/
def Renderer.start_layer (r : Renderer) : List Prim × Renderer :=
  (r.primitives, ⟨[]⟩)

/-- Modelled from the spec: "ends the layer, clipping/compositing its
accumulated output against `bounds`" — the stashed outer primitives are
restored and the layer's output is appended as one composite clipped to
`bounds`. -/
def Renderer.end_layer (r : Renderer) (stashed : List Prim) (bounds : Rectangle) : Renderer :=
  ⟨stashed ++ [Prim.clipRect bounds (Prim.group r.primitives)]⟩

/-- Modelled from the spec: "begins a transformation scope". -/
def Renderer.start_transformation (r : Renderer) : List Prim × Renderer :=
  (r.primitives, ⟨[]⟩)

/-- Modelled from the spec: "ends it applying `transform` to everything drawn
inside". -/
def Renderer.end_transformation (r : Renderer) (stashed : List Prim)
    (t : Transformation) : Renderer :=
  ⟨stashed ++ [Prim.transformed t (Prim.group r.primitives)]⟩

/-- Modelled from the spec: draw an axis-aligned quad. -/
def Renderer.fill_quad (r : Renderer) (q : Quad) (b : Background) : Renderer :=
  r.draw_primitive (Prim.quad q b)

/-- Modelled from the spec: "resets accumulated draw state for a new frame". -/
def Renderer.clear (_ : Renderer) : Renderer :=
  ⟨[]⟩

/-- Modelled from the spec: the wgpu backend forwards a custom pipeline
primitive into its custom-primitive pipeline. -/
def Renderer.draw_pipeline_primitive (r : Renderer) (bounds : Rectangle)
    (p : PipelinePrimitive) : Renderer :=
  r.draw_primitive (Prim.custom (CustomPrim.shader bounds p))

end Backend

/-- The two backend variants of the dispatch layer (lib.rs builds with the
`tiny_skia` feature enabled, so both variants exist). -/
inductive Variant
  | TinySkia
  | Wgpu
deriving DecidableEq, Repr

/-- Source src/renderer/src/lib.rs, `pub enum Renderer`: a tagged union over
the two backend renderers. Both payload types are represented by the single
spec-modelled `Backend.Renderer`, the tag keeping them apart. -/
inductive Renderer
  | TinySkia (renderer : Backend.Renderer)
  | Wgpu (renderer : Backend.Renderer)

/-- Source src/renderer/src/geometry.rs, `pub enum Frame`: a tagged union over
the two backend geometry frames. -/
inductive Frame
  | TinySkia (frame : Backend.Frame)
  | Wgpu (frame : Backend.Frame)

/-- Source src/renderer/src/geometry.rs, `pub enum Geometry`: a tagged union
over the two backend primitive types. -/
inductive Geometry
  | TinySkia (primitive : Prim)
  | Wgpu (primitive : Prim)

/-- Observer: the active variant of a `Renderer`. -/
def Renderer.variant : Renderer → Variant
  | .TinySkia _ => .TinySkia
  | .Wgpu _ => .Wgpu

/-- Observer: the backend state owned by a `Renderer`. -/
def Renderer.payload : Renderer → Backend.Renderer
  | .TinySkia renderer => renderer
  | .Wgpu renderer => renderer

/-- Build a `Renderer` of a given variant around a backend state. -/
def Renderer.ofVariant : Variant → Backend.Renderer → Renderer
  | .TinySkia, renderer => .TinySkia renderer
  | .Wgpu, renderer => .Wgpu renderer

/-- Observer: the active variant of a `Frame`. -/
def Frame.variant : Frame → Variant
  | .TinySkia _ => .TinySkia
  | .Wgpu _ => .Wgpu

/-- Observer: the backend frame owned by a `Frame`. -/
def Frame.payload : Frame → Backend.Frame
  | .TinySkia frame => frame
  | .Wgpu frame => frame

/-- Build a `Frame` of a given variant around a backend frame. -/
def Frame.ofVariant : Variant → Backend.Frame → Frame
  | .TinySkia, frame => .TinySkia frame
  | .Wgpu, frame => .Wgpu frame

/-- Observer: the variant of a `Geometry`. -/
def Geometry.variant : Geometry → Variant
  | .TinySkia _ => .TinySkia
  | .Wgpu _ => .Wgpu

/-- Observer: the backend primitive carried by a `Geometry`. -/
def Geometry.payload : Geometry → Prim
  | .TinySkia primitive => primitive
  | .Wgpu primitive => primitive

/-- Source geometry.rs, `Frame::new`: match on the renderer's variant and
construct a fresh backend frame of that variant, sized to `s`. -/
def Frame.new (renderer : Renderer) (s : Size) : Frame :=
  match renderer with
  | .TinySkia _ => .TinySkia (Backend.Frame.new s)
  | .Wgpu _ => .Wgpu (Backend.Frame.new s)

/-- Source geometry.rs, `Frame::width` (the `delegate!` macro expanded). -/
def Frame.width : Frame → Scalar
  | .TinySkia frame => frame.width
  | .Wgpu frame => frame.width

/-- Source geometry.rs, `Frame::height`. -/
def Frame.height : Frame → Scalar
  | .TinySkia frame => frame.height
  | .Wgpu frame => frame.height

/-- Source geometry.rs, `Frame::size`. -/
def Frame.size : Frame → Size
  | .TinySkia frame => frame.size
  | .Wgpu frame => frame.size

/-- Source geometry.rs, `Frame::center`. -/
def Frame.center : Frame → Point
  | .TinySkia frame => frame.center
  | .Wgpu frame => frame.center

/-- Source geometry.rs, `Frame::fill`. -/
def Frame.fill (self : Frame) (path : Path) (style : Fill) : Frame :=
  match self with
  | .TinySkia frame => .TinySkia (frame.fill path style)
  | .Wgpu frame => .Wgpu (frame.fill path style)

/-- Source geometry.rs, `Frame::fill_rectangle`. -/
def Frame.fill_rectangle (self : Frame) (topLeft : Point) (s : Size) (style : Fill) : Frame :=
  match self with
  | .TinySkia frame => .TinySkia (frame.fill_rectangle topLeft s style)
  | .Wgpu frame => .Wgpu (frame.fill_rectangle topLeft s style)

/-- Source geometry.rs, `Frame::stroke`. -/
def Frame.stroke (self : Frame) (path : Path) (style : Stroke) : Frame :=
  match self with
  | .TinySkia frame => .TinySkia (frame.stroke path style)
  | .Wgpu frame => .Wgpu (frame.stroke path style)

/-- Source geometry.rs, `Frame::fill_text`. -/
def Frame.fill_text (self : Frame) (text : Text) : Frame :=
  match self with
  | .TinySkia frame => .TinySkia (frame.fill_text text)
  | .Wgpu frame => .Wgpu (frame.fill_text text)

/-- Source geometry.rs, the first `delegate!` line of `Frame::with_save`:
push the current transform on whichever variant is active. -/
def Frame.push_transform (self : Frame) : Frame :=
  match self with
  | .TinySkia frame => .TinySkia frame.push_transform
  | .Wgpu frame => .Wgpu frame.push_transform

/-- Source geometry.rs, the last `delegate!` line of `Frame::with_save`:
pop the transform on whichever variant is active. -/
def Frame.pop_transform (self : Frame) : Frame :=
  match self with
  | .TinySkia frame => .TinySkia frame.pop_transform
  | .Wgpu frame => .Wgpu frame.pop_transform

/-- Source geometry.rs, `Frame::with_save` for a closure that returns
normally: push the transform, run the closure on the frame, then pop the
transform on whatever frame the closure left behind (there is no variant
check between the push and the pop). -/
def Frame.with_save (self : Frame) (f : Frame → Frame) : Frame :=
  (f self.push_transform).pop_transform

/-- Source geometry.rs, `Frame::with_save` under Rust unwinding: the closure
returns its final frame state paired with a flag saying whether it panicked.
The source installs no unwind guard, so when the closure panics the panic
propagates before the trailing `pop_transform` line runs; only a normal
return reaches the pop. -/
def Frame.with_save_unwind (self : Frame) (f : Frame → Frame × Bool) : Frame × Bool :=
  match f self.push_transform with
  | (after, true) => (after, true)
  | (after, false) => (after.pop_transform, false)

/-- Source geometry.rs, `Frame::with_clip`: build a sub-frame of the active
variant sized to `region.size()`, run the closure on it, then merge it into
the parent at `(region.x, region.y)`; the final match panics
(`unreachable!`) when the closure left the sub-frame in the other variant,
modelled as `Except.error`. -/
def Frame.with_clip (self : Frame) (region : Rectangle) (f : Frame → Frame) :
    Except String Frame :=
  let sub : Frame :=
    match self with
    | .TinySkia _ => .TinySkia (Backend.Frame.new region.size)
    | .Wgpu _ => .Wgpu (Backend.Frame.new region.size)
  let sub := f sub
  let origin : Point := ⟨region.x, region.y⟩
  match self, sub with
  | .TinySkia target, .TinySkia frame => .ok (.TinySkia (target.clip frame origin))
  | .Wgpu target, .Wgpu frame => .ok (.Wgpu (target.clip frame origin))
  | _, _ => .error "unreachable"

/-- Source geometry.rs, `Frame::translate`. -/
def Frame.translate (self : Frame) (v : Vector) : Frame :=
  match self with
  | .TinySkia frame => .TinySkia (frame.translate v)
  | .Wgpu frame => .Wgpu (frame.translate v)

/-- Source geometry.rs, `Frame::rotate`. -/
def Frame.rotate (self : Frame) (angle : Scalar) : Frame :=
  match self with
  | .TinySkia frame => .TinySkia (frame.rotate angle)
  | .Wgpu frame => .Wgpu (frame.rotate angle)

/-- Source geometry.rs, `Frame::scale`. -/
def Frame.scale (self : Frame) (factor : Scalar) : Frame :=
  match self with
  | .TinySkia frame => .TinySkia (frame.scale factor)
  | .Wgpu frame => .Wgpu (frame.scale factor)

/-- Source geometry.rs, `Frame::scale_nonuniform`. -/
def Frame.scale_nonuniform (self : Frame) (v : Vector) : Frame :=
  match self with
  | .TinySkia frame => .TinySkia (frame.scale_nonuniform v)
  | .Wgpu frame => .Wgpu (frame.scale_nonuniform v)

/-- Source geometry.rs, `Frame::into_geometry`: consume the frame into a
`Geometry` of the same variant. -/
def Frame.into_geometry : Frame → Geometry
  | .TinySkia frame => .TinySkia frame.into_primitive
  | .Wgpu frame => .Wgpu frame.into_primitive

/-- Warnings emitted through `log::warn!` by the dispatch layer. -/
inductive Warning
  | unsupportedMesh (m : Mesh)
  | customShaderUnavailable
deriving DecidableEq, Repr

/-- Result of a renderer operation that can hit an `unreachable!`: either a
normal result or a panic, recorded together with the renderer state observable
at the panic point. -/
inductive DrawResult
  | ok (renderer : Renderer)
  | panicked (renderer : Renderer)

/-- Decidable test for the panicked case. -/
def DrawResult.isPanicked : DrawResult → Bool
  | .ok _ => false
  | .panicked _ => true

/-- Source lib.rs, `Renderer::draw_mesh`: the TinySkia arm only logs a
warning ("Unsupported mesh primitive"), the Wgpu arm forwards the mesh as a
custom primitive. The emitted warning, if any, is returned alongside. -/
def Renderer.draw_mesh (self : Renderer) (mesh : Mesh) : Renderer × Option Warning :=
  match self with
  | .TinySkia renderer => ((.TinySkia renderer), some (Warning.unsupportedMesh mesh))
  | .Wgpu renderer =>
      ((.Wgpu (renderer.draw_primitive (Prim.custom (CustomPrim.mesh mesh)))), none)

/-- Source lib.rs, `core::Renderer::with_layer`: match on the variant, start
a layer on it, run the closure on `self`, then match again and end the layer
on the same variant — the second match's other arm is `unreachable!`,
modelled as `DrawResult.panicked` carrying the closure's final state. -/
def Renderer.with_layer (self : Renderer) (bounds : Rectangle)
    (f : Renderer → Renderer) : DrawResult :=
  match self with
  | .TinySkia renderer =>
    let (primitives, started) := renderer.start_layer
    match f (Renderer.TinySkia started) with
    | .TinySkia renderer => .ok (.TinySkia (renderer.end_layer primitives bounds))
    | other => .panicked other
  | .Wgpu renderer =>
    let (primitives, started) := renderer.start_layer
    match f (Renderer.Wgpu started) with
    | .Wgpu renderer => .ok (.Wgpu (renderer.end_layer primitives bounds))
    | other => .panicked other

/-- Source lib.rs, `core::Renderer::with_transformation`: same shape as
`with_layer`, ending the scope by applying the transformation. -/
def Renderer.with_transformation (self : Renderer) (transformation : Transformation)
    (f : Renderer → Renderer) : DrawResult :=
  match self with
  | .TinySkia renderer =>
    let (primitives, started) := renderer.start_transformation
    match f (Renderer.TinySkia started) with
    | .TinySkia renderer =>
        .ok (.TinySkia (renderer.end_transformation primitives transformation))
    | other => .panicked other
  | .Wgpu renderer =>
    let (primitives, started) := renderer.start_transformation
    match f (Renderer.Wgpu started) with
    | .Wgpu renderer =>
        .ok (.Wgpu (renderer.end_transformation primitives transformation))
    | other => .panicked other

/-- Source lib.rs, `core::Renderer::fill_quad` (`delegate!` expanded). -/
def Renderer.fill_quad (self : Renderer) (q : Quad) (b : Background) : Renderer :=
  match self with
  | .TinySkia renderer => .TinySkia (renderer.fill_quad q b)
  | .Wgpu renderer => .Wgpu (renderer.fill_quad q b)

/-- Source lib.rs, `core::Renderer::clear` (`delegate!` expanded). -/
def Renderer.clear (self : Renderer) : Renderer :=
  match self with
  | .TinySkia renderer => .TinySkia renderer.clear
  | .Wgpu renderer => .Wgpu renderer.clear

/-- Source lib.rs, the TinySkia loop of `graphics::geometry::Renderer::draw`:
each layer is matched against the TinySkia variant and forwarded to
`draw_primitive`; a Wgpu layer hits `unreachable!`, modelled as a panic
carrying the backend state accumulated so far. -/
def Renderer.drawLoopTinySkia (renderer : Backend.Renderer) :
    List Geometry → DrawResult
  | [] => .ok (.TinySkia renderer)
  | Geometry.TinySkia primitive :: rest =>
      Renderer.drawLoopTinySkia (renderer.draw_primitive primitive) rest
  | Geometry.Wgpu _ :: _ => .panicked (.TinySkia renderer)

/-- Source lib.rs, the Wgpu loop of `graphics::geometry::Renderer::draw`. -/
def Renderer.drawLoopWgpu (renderer : Backend.Renderer) :
    List Geometry → DrawResult
  | [] => .ok (.Wgpu renderer)
  | Geometry.Wgpu primitive :: rest =>
      Renderer.drawLoopWgpu (renderer.draw_primitive primitive) rest
  | Geometry.TinySkia _ :: _ => .panicked (.Wgpu renderer)

/-- Source lib.rs, `graphics::geometry::Renderer::draw`: match on the active
variant and run the corresponding layer loop. -/
def Renderer.draw (self : Renderer) (layers : List Geometry) : DrawResult :=
  match self with
  | .TinySkia renderer => Renderer.drawLoopTinySkia renderer layers
  | .Wgpu renderer => Renderer.drawLoopWgpu renderer layers

/-- Source lib.rs, `pipeline::Renderer::draw_pipeline_primitive`: the
TinySkia arm only logs "Custom shader primitive is unavailable with
tiny-skia.", the Wgpu arm forwards to the backend. -/
def Renderer.draw_pipeline_primitive (self : Renderer) (bounds : Rectangle)
    (primitive : PipelinePrimitive) : Renderer × Option Warning :=
  match self with
  | .TinySkia renderer => ((.TinySkia renderer), some Warning.customShaderUnavailable)
  | .Wgpu renderer =>
      ((.Wgpu (renderer.draw_pipeline_primitive bounds primitive)), none)

/-- A closure body built from the public drawing and transform operations of
`Frame` (the interface the dispatch layer exposes to canvas widgets). This is
the class of closures the spec's round-trip properties quantify over: such a
closure always returns normally and can only act on the frame through the
public API. -/
inductive Script
  | skip
  | seq (a b : Script)
  | fillPath (path : Path) (style : Fill)
  | fillRect (topLeft : Point) (s : Size) (style : Fill)
  | strokePath (path : Path) (style : Stroke)
  | fillText (text : Text)
  | translate (v : Vector)
  | rotate (angle : Scalar)
  | scale (factor : Scalar)
  | scaleNonuniform (v : Vector)
  | withSave (body : Script)
  | withClip (region : Rectangle) (body : Script)

/-- Run a script against a `Frame` through the public operations. The
`withSave` case is exactly `Frame.with_save`; the `withClip` case is the
successful path of `Frame.with_clip` (scripts preserve the active variant, so
the `unreachable!` arm cannot fire — `run_with_clip` below proves the two
agree). -/
def Script.run : Script → Frame → Frame
  | .skip, fr => fr
  | .seq a b, fr => Script.run b (Script.run a fr)
  | .fillPath path style, fr => fr.fill path style
  | .fillRect topLeft s style, fr => fr.fill_rectangle topLeft s style
  | .strokePath path style, fr => fr.stroke path style
  | .fillText text, fr => fr.fill_text text
  | .translate v, fr => fr.translate v
  | .rotate angle, fr => fr.rotate angle
  | .scale factor, fr => fr.scale factor
  | .scaleNonuniform v, fr => fr.scale_nonuniform v
  | .withSave body, fr => (Script.run body fr.push_transform).pop_transform
  | .withClip region body, fr =>
      Frame.ofVariant fr.variant
        (fr.payload.clip
          (Script.run body (Frame.ofVariant fr.variant (Backend.Frame.new region.size))).payload
          ⟨region.x, region.y⟩)

/-- Rebuilding a frame from its variant and payload is the identity. -/
theorem Frame.ofVariant_variant_payload (fr : Frame) :
    Frame.ofVariant fr.variant fr.payload = fr := by
  cases fr <;> rfl

/-- Variant and payload of `Frame.ofVariant`. -/
theorem Frame.variant_payload_ofVariant (v : Variant) (bf : Backend.Frame) :
    (Frame.ofVariant v bf).variant = v ∧ (Frame.ofVariant v bf).payload = bf := by
  cases v <;> exact ⟨rfl, rfl⟩

/-- Running a script never changes the active variant, the transform stack,
or the canvas size of the frame. -/
theorem Script.run_preserves (s : Script) : ∀ fr : Frame,
    (Script.run s fr).variant = fr.variant ∧
    (Script.run s fr).payload.stack = fr.payload.stack ∧
    (Script.run s fr).payload.size = fr.payload.size := by
  induction s with
  | skip => intro fr; exact ⟨rfl, rfl, rfl⟩
  | seq a b iha ihb =>
      intro fr
      obtain ⟨ha1, ha2, ha3⟩ := iha fr
      obtain ⟨hb1, hb2, hb3⟩ := ihb (Script.run a fr)
      exact ⟨hb1.trans ha1, hb2.trans ha2, hb3.trans ha3⟩
  | fillPath path style => intro fr; cases fr <;> exact ⟨rfl, rfl, rfl⟩
  | fillRect topLeft sz style => intro fr; cases fr <;> exact ⟨rfl, rfl, rfl⟩
  | strokePath path style => intro fr; cases fr <;> exact ⟨rfl, rfl, rfl⟩
  | fillText text => intro fr; cases fr <;> exact ⟨rfl, rfl, rfl⟩
  | translate v => intro fr; cases fr <;> exact ⟨rfl, rfl, rfl⟩
  | rotate angle => intro fr; cases fr <;> exact ⟨rfl, rfl, rfl⟩
  | scale factor => intro fr; cases fr <;> exact ⟨rfl, rfl, rfl⟩
  | scaleNonuniform v => intro fr; cases fr <;> exact ⟨rfl, rfl, rfl⟩
  | withSave body ih =>
      intro fr
      obtain ⟨h1, h2, h3⟩ := ih fr.push_transform
      cases fr with
      | TinySkia frame =>
          cases hrun : Script.run body (Frame.TinySkia frame).push_transform with
          | TinySkia frame2 =>
              rw [hrun] at h1 h2 h3
              simp only [Script.run, hrun]
              simp only [Frame.push_transform, Frame.payload, Frame.variant,
                Backend.Frame.push_transform] at h1 h2 h3 ⊢
              refine ⟨rfl, ?_, ?_⟩ <;>
                simp_all [Frame.pop_transform, Backend.Frame.pop_transform,
                  Frame.payload]
          | Wgpu frame2 =>
              rw [hrun] at h1
              simp [Frame.variant, Frame.push_transform] at h1
      | Wgpu frame =>
          cases hrun : Script.run body (Frame.Wgpu frame).push_transform with
          | Wgpu frame2 =>
              rw [hrun] at h1 h2 h3
              simp only [Script.run, hrun]
              simp only [Frame.push_transform, Frame.payload, Frame.variant,
                Backend.Frame.push_transform] at h1 h2 h3 ⊢
              refine ⟨rfl, ?_, ?_⟩ <;>
                simp_all [Frame.pop_transform, Backend.Frame.pop_transform,
                  Frame.payload]
          | TinySkia frame2 =>
              rw [hrun] at h1
              simp [Frame.variant, Frame.push_transform] at h1
  | withClip region body ih =>
      intro fr
      cases fr <;>
        exact ⟨(Frame.variant_payload_ofVariant _ _).1, by
          simp [Script.run, Frame.variant, Frame.ofVariant, Frame.payload,
            Backend.Frame.clip], by
          simp [Script.run, Frame.variant, Frame.ofVariant, Frame.payload,
            Backend.Frame.clip]⟩

/-- Pushing saves the current transform on top of the stack, touching neither
the variant nor the current transform. -/
theorem Frame.push_transform_spec (fr : Frame) :
    fr.push_transform.payload.stack = fr.payload.transform :: fr.payload.stack ∧
    fr.push_transform.variant = fr.variant ∧
    fr.push_transform.payload.transform = fr.payload.transform := by
  cases fr <;> exact ⟨rfl, rfl, rfl⟩

/-- Popping a frame whose stack starts with `t` makes `t` the current
transform and drops it from the stack, preserving the variant. -/
theorem Frame.pop_transform_spec (fr : Frame) (t : Transform) (rest : List Transform)
    (h : fr.payload.stack = t :: rest) :
    fr.pop_transform.payload.transform = t ∧
    fr.pop_transform.payload.stack = rest ∧
    fr.pop_transform.variant = fr.variant := by
  cases fr <;>
    simp_all [Frame.pop_transform, Frame.payload, Frame.variant,
      Backend.Frame.pop_transform]

/-- C1 (amended) — `with_save` round-trip: for every `Frame` and every
closure composed of the frame's public drawing and transform operations
(hence returning normally), the frame's effective transform after
`with_save` returns equals the transform before it was called — the
transform stack depth and content, and the active variant, are fully
restored. -/
theorem with_save_round_trip (fr : Frame) (body : Script) :
    (fr.with_save (Script.run body)).payload.transform = fr.payload.transform ∧
    (fr.with_save (Script.run body)).payload.stack = fr.payload.stack ∧
    (fr.with_save (Script.run body)).variant = fr.variant := by
  have hpush := Frame.push_transform_spec fr
  have hrun := Script.run_preserves body fr.push_transform
  have hpop := Frame.pop_transform_spec (Script.run body fr.push_transform)
      fr.payload.transform fr.payload.stack (by rw [hrun.2.1, hpush.1])
  unfold Frame.with_save
  exact ⟨hpop.1, hpop.2.1, hpop.2.2.trans (hrun.1.trans hpush.2.1)⟩

/-- C1 counterexample — the claim fails on two exit paths it covers: a
closure that panics propagates before the trailing `pop_transform` runs
(no unwind guard exists in the source), leaving the pushed transform on the
stack; and a closure that replaces the frame wholesale defeats restoration
even on normal return. -/
theorem with_save_claim_counterexample :
    ((Frame.Wgpu (Backend.Frame.new ⟨100, 100⟩)).with_save_unwind
        (fun s => (s.translate ⟨1, 2⟩, true))).1.payload.stack ≠
      (Frame.Wgpu (Backend.Frame.new ⟨100, 100⟩)).payload.stack ∧
    ((Frame.TinySkia (Backend.Frame.new ⟨100, 100⟩)).with_save
        (fun _ => Frame.Wgpu ((Backend.Frame.new ⟨50, 50⟩).translate ⟨3, 0⟩))).payload.transform ≠
      (Frame.TinySkia (Backend.Frame.new ⟨100, 100⟩)).payload.transform := by
  constructor <;> decide

/-- C6 — Frame construction: for every renderer and size, `Frame::new`
returns a frame of the renderer's active variant whose `size()` is the
given size and whose `center()` is `(width / 2, height / 2)`. -/
theorem frame_new_spec (r : Renderer) (s : Size) :
    (Frame.new r s).variant = r.variant ∧
    (Frame.new r s).size = s ∧
    (Frame.new r s).center = ⟨s.width / 2, s.height / 2⟩ := by
  cases r <;> exact ⟨rfl, rfl, rfl⟩

/-- The TinySkia draw loop forwards matching layers in order; on the first
Wgpu layer it panics, with exactly the layers before it already forwarded. -/
theorem drawLoopTinySkia_spec (layers : List Geometry) : ∀ renderer : Backend.Renderer,
    ((∀ g ∈ layers, g.variant = Variant.TinySkia) →
      Renderer.drawLoopTinySkia renderer layers =
        DrawResult.ok (Renderer.TinySkia ⟨renderer.primitives ++ layers.map Geometry.payload⟩)) ∧
    (∀ pre g post, layers = pre ++ g :: post →
      (∀ x ∈ pre, x.variant = Variant.TinySkia) → g.variant ≠ Variant.TinySkia →
      Renderer.drawLoopTinySkia renderer layers =
        DrawResult.panicked (Renderer.TinySkia ⟨renderer.primitives ++ pre.map Geometry.payload⟩)) := by
  induction layers with
  | nil =>
      intro renderer
      constructor
      · intro _
        simp [Renderer.drawLoopTinySkia]
      · intro pre g post habs _ _
        cases pre <;> simp at habs
  | cons hd tl ih =>
      intro renderer
      constructor
      · intro hall
        cases hd with
        | TinySkia primitive =>
            have h2 := (ih (renderer.draw_primitive primitive)).1
              (fun g hg => hall g (List.mem_cons_of_mem _ hg))
            have h1 : Renderer.drawLoopTinySkia renderer (Geometry.TinySkia primitive :: tl)
                = Renderer.drawLoopTinySkia (renderer.draw_primitive primitive) tl := rfl
            rw [h1, h2]
            simp [Backend.Renderer.draw_primitive, Geometry.payload]
        | Wgpu primitive =>
            have := hall (Geometry.Wgpu primitive) (List.mem_cons_self _ _)
            simp [Geometry.variant] at this
      · intro pre g post heq hpre hg
        cases pre with
        | nil =>
            simp only [List.nil_append, List.cons.injEq] at heq
            obtain ⟨h1, h2⟩ := heq
            rw [← h1] at hg
            cases hd with
            | TinySkia primitive => simp [Geometry.variant] at hg
            | Wgpu primitive => simp [Renderer.drawLoopTinySkia]
        | cons p ps =>
            simp only [List.cons_append, List.cons.injEq] at heq
            obtain ⟨h1, h2⟩ := heq
            rw [← h1] at hpre ⊢
            cases hd with
            | Wgpu primitive =>
                have := hpre (Geometry.Wgpu primitive) (List.mem_cons_self _ _)
                simp [Geometry.variant] at this
            | TinySkia primitive =>
                have h2' := (ih (renderer.draw_primitive primitive)).2 ps g post h2
                  (fun x hx => hpre x (List.mem_cons_of_mem _ hx)) hg
                have h1' : Renderer.drawLoopTinySkia renderer (Geometry.TinySkia primitive :: tl)
                    = Renderer.drawLoopTinySkia (renderer.draw_primitive primitive) tl := rfl
                rw [h1', h2']
                simp [Backend.Renderer.draw_primitive, Geometry.payload]

/-- The Wgpu draw loop forwards matching layers in order; on the first
TinySkia layer it panics, with exactly the layers before it already
forwarded. -/
theorem drawLoopWgpu_spec (layers : List Geometry) : ∀ renderer : Backend.Renderer,
    ((∀ g ∈ layers, g.variant = Variant.Wgpu) →
      Renderer.drawLoopWgpu renderer layers =
        DrawResult.ok (Renderer.Wgpu ⟨renderer.primitives ++ layers.map Geometry.payload⟩)) ∧
    (∀ pre g post, layers = pre ++ g :: post →
      (∀ x ∈ pre, x.variant = Variant.Wgpu) → g.variant ≠ Variant.Wgpu →
      Renderer.drawLoopWgpu renderer layers =
        DrawResult.panicked (Renderer.Wgpu ⟨renderer.primitives ++ pre.map Geometry.payload⟩)) := by
  induction layers with
  | nil =>
      intro renderer
      constructor
      · intro _
        simp [Renderer.drawLoopWgpu]
      · intro pre g post habs _ _
        cases pre <;> simp at habs
  | cons hd tl ih =>
      intro renderer
      constructor
      · intro hall
        cases hd with
        | Wgpu primitive =>
            have h2 := (ih (renderer.draw_primitive primitive)).1
              (fun g hg => hall g (List.mem_cons_of_mem _ hg))
            have h1 : Renderer.drawLoopWgpu renderer (Geometry.Wgpu primitive :: tl)
                = Renderer.drawLoopWgpu (renderer.draw_primitive primitive) tl := rfl
            rw [h1, h2]
            simp [Backend.Renderer.draw_primitive, Geometry.payload]
        | TinySkia primitive =>
            have := hall (Geometry.TinySkia primitive) (List.mem_cons_self _ _)
            simp [Geometry.variant] at this
      · intro pre g post heq hpre hg
        cases pre with
        | nil =>
            simp only [List.nil_append, List.cons.injEq] at heq
            obtain ⟨h1, h2⟩ := heq
            rw [← h1] at hg
            cases hd with
            | Wgpu primitive => simp [Geometry.variant] at hg
            | TinySkia primitive => simp [Renderer.drawLoopWgpu]
        | cons p ps =>
            simp only [List.cons_append, List.cons.injEq] at heq
            obtain ⟨h1, h2⟩ := heq
            rw [← h1] at hpre ⊢
            cases hd with
            | TinySkia primitive =>
                have := hpre (Geometry.TinySkia primitive) (List.mem_cons_self _ _)
                simp [Geometry.variant] at this
            | Wgpu primitive =>
                have h2' := (ih (renderer.draw_primitive primitive)).2 ps g post h2
                  (fun x hx => hpre x (List.mem_cons_of_mem _ hx)) hg
                have h1' : Renderer.drawLoopWgpu renderer (Geometry.Wgpu primitive :: tl)
                    = Renderer.drawLoopWgpu (renderer.draw_primitive primitive) tl := rfl
                rw [h1', h2']
                simp [Backend.Renderer.draw_primitive, Geometry.payload]

/-- Splitting a list at the first element violating a decidable predicate. -/
theorem exists_first_not {α : Type} (p : α → Prop) [DecidablePred p] :
    ∀ l : List α, (¬ ∀ x ∈ l, p x) →
      ∃ pre x post, l = pre ++ x :: post ∧ (∀ y ∈ pre, p y) ∧ ¬ p x
  | [], h => absurd (by simp) h
  | a :: t, h => by
      by_cases ha : p a
      · have ht : ¬ ∀ x ∈ t, p x := by
          intro hall
          exact h (by
            intro x hx
            rcases List.mem_cons.mp hx with rfl | hx2
            · exact ha
            · exact hall x hx2)
        obtain ⟨pre, x, post, hsplit, hpre, hx⟩ := exists_first_not p t ht
        exact ⟨a :: pre, x, post, by simp [hsplit], by
          intro y hy
          rcases List.mem_cons.mp hy with rfl | hy2
          · exact ha
          · exact hpre y hy2, hx⟩
      · exact ⟨[], a, t, rfl, by simp, ha⟩

/-- C2 — variant-mismatch fatality of `Renderer::draw`: whenever some layer's
variant differs from the renderer's active variant, the call panics (hits
`unreachable!`); it never returns normally, so the mismatched layer is
neither drawn, reinterpreted, nor silently dropped. -/
theorem draw_mismatch_panics (r : Renderer) (layers : List Geometry)
    (h : ∃ g ∈ layers, g.variant ≠ r.variant) :
    (r.draw layers).isPanicked = true := by
  obtain ⟨g, hmem, hne⟩ := h
  cases r with
  | TinySkia renderer =>
      obtain ⟨pre, x, post, hsplit, hpre, hx⟩ :=
        exists_first_not (fun y : Geometry => y.variant = Variant.TinySkia) layers
          (fun hall => hne (hall g hmem))
      have := (drawLoopTinySkia_spec layers renderer).2 pre x post hsplit hpre hx
      simp [Renderer.draw, this, DrawResult.isPanicked]
  | Wgpu renderer =>
      obtain ⟨pre, x, post, hsplit, hpre, hx⟩ :=
        exists_first_not (fun y : Geometry => y.variant = Variant.Wgpu) layers
          (fun hall => hne (hall g hmem))
      have := (drawLoopWgpu_spec layers renderer).2 pre x post hsplit hpre hx
      simp [Renderer.draw, this, DrawResult.isPanicked]

/-- C2 witness: a Wgpu renderer given a TinySkia geometry layer panics. -/
theorem draw_mismatch_panics_witness :
    ((Renderer.Wgpu ⟨[]⟩).draw [Geometry.TinySkia (Prim.group [])]).isPanicked = true :=
  draw_mismatch_panics (Renderer.Wgpu ⟨[]⟩) [Geometry.TinySkia (Prim.group [])]
    ⟨Geometry.TinySkia (Prim.group []), List.mem_singleton.mpr rfl, by decide⟩

/-- C7 — ordered layer forwarding: when every layer matches the renderer's
active variant, `Renderer::draw` returns normally and the backend has
received exactly the layers' primitives, appended in the order given after
its previously accumulated state — no reordering, duplication, or
omission. -/
theorem draw_ordered_forwarding (r : Renderer) (layers : List Geometry)
    (h : ∀ g ∈ layers, g.variant = r.variant) :
    r.draw layers = DrawResult.ok (Renderer.ofVariant r.variant
      ⟨r.payload.primitives ++ layers.map Geometry.payload⟩) := by
  cases r with
  | TinySkia renderer => exact (drawLoopTinySkia_spec layers renderer).1 h
  | Wgpu renderer => exact (drawLoopWgpu_spec layers renderer).1 h

/-- C7 witness: two Wgpu layers are forwarded in order after existing state. -/
theorem draw_ordered_forwarding_witness :
    (Renderer.Wgpu ⟨[Prim.quad ⟨1⟩ ⟨1⟩]⟩).draw
        [Geometry.Wgpu (Prim.quad ⟨2⟩ ⟨2⟩), Geometry.Wgpu (Prim.quad ⟨3⟩ ⟨3⟩)] =
      DrawResult.ok (Renderer.Wgpu
        ⟨[Prim.quad ⟨1⟩ ⟨1⟩, Prim.quad ⟨2⟩ ⟨2⟩, Prim.quad ⟨3⟩ ⟨3⟩]⟩) := by
  have h := draw_ordered_forwarding (Renderer.Wgpu ⟨[Prim.quad ⟨1⟩ ⟨1⟩]⟩)
    [Geometry.Wgpu (Prim.quad ⟨2⟩ ⟨2⟩), Geometry.Wgpu (Prim.quad ⟨3⟩ ⟨3⟩)]
    (by
      intro g hg
      rcases List.mem_cons.mp hg with rfl | hg2
      · rfl
      · rcases List.mem_cons.mp hg2 with rfl | hg3
        · rfl
        · cases hg3)
  exact h

/-- C9 — non-atomicity of `Renderer::draw` on mismatch: when the first
variant-mismatched layer sits after a matching prefix, the call panics with
exactly that prefix already forwarded to the backend, so the renderer's
accumulated draw state is not left unchanged by the failing call. -/
theorem draw_mismatch_forwards_prefix (r : Renderer) (pre : List Geometry)
    (g : Geometry) (post : List Geometry)
    (hpre : ∀ x ∈ pre, x.variant = r.variant) (hg : g.variant ≠ r.variant) :
    r.draw (pre ++ g :: post) =
      DrawResult.panicked (Renderer.ofVariant r.variant
        ⟨r.payload.primitives ++ pre.map Geometry.payload⟩) := by
  cases r with
  | TinySkia renderer =>
      exact (drawLoopTinySkia_spec (pre ++ g :: post) renderer).2 pre g post rfl hpre hg
  | Wgpu renderer =>
      exact (drawLoopWgpu_spec (pre ++ g :: post) renderer).2 pre g post rfl hpre hg

/-- C9 witness: a Wgpu renderer drawing a matching layer followed by a
TinySkia layer panics with the matching layer already in the backend. -/
theorem draw_mismatch_forwards_prefix_witness :
    (Renderer.Wgpu ⟨[]⟩).draw
        ([Geometry.Wgpu (Prim.quad ⟨1⟩ ⟨1⟩)] ++
          Geometry.TinySkia (Prim.group []) :: [Geometry.Wgpu (Prim.quad ⟨2⟩ ⟨2⟩)]) =
      DrawResult.panicked (Renderer.Wgpu ⟨[Prim.quad ⟨1⟩ ⟨1⟩]⟩) := by
  have h := draw_mismatch_forwards_prefix (Renderer.Wgpu ⟨[]⟩)
    [Geometry.Wgpu (Prim.quad ⟨1⟩ ⟨1⟩)] (Geometry.TinySkia (Prim.group []))
    [Geometry.Wgpu (Prim.quad ⟨2⟩ ⟨2⟩)]
    (by
      intro x hx
      rcases List.mem_singleton.mp hx with rfl
      rfl)
    (by decide)
  exact h

/-- C3 — capability degradation: a mesh drawn on the TinySkia variant only
emits a warning, leaving the renderer untouched (no panic, the session
continues); on the Wgpu variant it is forwarded as a custom-primitive draw
call. A custom pipeline primitive on the TinySkia variant emits the
"unavailable" warning and is dropped without failing; on the Wgpu variant it
is forwarded to the backend. -/
theorem capability_degradation :
    (∀ (renderer : Backend.Renderer) (m : Mesh),
      (Renderer.TinySkia renderer).draw_mesh m =
        ((Renderer.TinySkia renderer), some (Warning.unsupportedMesh m))) ∧
    (∀ (renderer : Backend.Renderer) (m : Mesh),
      (Renderer.Wgpu renderer).draw_mesh m =
        ((Renderer.Wgpu (renderer.draw_primitive
          (Prim.custom (CustomPrim.mesh m)))), none)) ∧
    (∀ (renderer : Backend.Renderer) (bounds : Rectangle) (p : PipelinePrimitive),
      (Renderer.TinySkia renderer).draw_pipeline_primitive bounds p =
        ((Renderer.TinySkia renderer), some Warning.customShaderUnavailable)) ∧
    (∀ (renderer : Backend.Renderer) (bounds : Rectangle) (p : PipelinePrimitive),
      (Renderer.Wgpu renderer).draw_pipeline_primitive bounds p =
        ((Renderer.Wgpu (renderer.draw_pipeline_primitive bounds p)), none)) :=
  ⟨fun _ _ => rfl, fun _ _ => rfl, fun _ _ _ => rfl, fun _ _ _ => rfl⟩

/-- The `unreachable!` arm of `with_clip` never fires for closures built from
the public frame operations: `Frame.with_clip` agrees with the structural
interpreter on them. -/
theorem Frame.with_clip_run (fr : Frame) (region : Rectangle) (body : Script) :
    fr.with_clip region (Script.run body) =
      Except.ok (Script.run (Script.withClip region body) fr) := by
  cases fr with
  | TinySkia frame =>
      have h := (Script.run_preserves body (Frame.TinySkia (Backend.Frame.new region.size))).1
      cases hrun : Script.run body (Frame.TinySkia (Backend.Frame.new region.size)) with
      | TinySkia sub =>
          simp only [Frame.with_clip, Script.run, hrun, Frame.ofVariant, Frame.variant,
            Frame.payload]
      | Wgpu sub =>
          rw [hrun] at h
          simp [Frame.variant] at h
  | Wgpu frame =>
      have h := (Script.run_preserves body (Frame.Wgpu (Backend.Frame.new region.size))).1
      cases hrun : Script.run body (Frame.Wgpu (Backend.Frame.new region.size)) with
      | Wgpu sub =>
          simp only [Frame.with_clip, Script.run, hrun, Frame.ofVariant, Frame.variant,
            Frame.payload]
      | TinySkia sub =>
          rw [hrun] at h
          simp [Frame.variant] at h

/-- C4 — `with_clip` semantics: for every frame, region and closure built
from the public frame operations, `with_clip` builds a sub-frame of the same
variant whose canvas size is `region.size()`, runs the closure against it,
and then composites the sub-frame's recorded content into the parent as a
single clip primitive at origin `(region.x, region.y)` bounded by
`region.size()`; that composite cannot render at any point outside the
region, so content drawn beyond the region never appears in the parent's
final geometry. -/
theorem with_clip_spec (fr : Frame) (region : Rectangle) (body : Script) :
    (Frame.ofVariant fr.variant (Backend.Frame.new region.size)).variant = fr.variant ∧
    (Frame.ofVariant fr.variant (Backend.Frame.new region.size)).payload.size = region.size ∧
    fr.with_clip region (Script.run body) =
      Except.ok (Frame.ofVariant fr.variant
        { fr.payload with primitives := fr.payload.primitives ++
            [Prim.clip ⟨region.x, region.y⟩ region.size
              (Prim.group (Script.run body
                (Frame.ofVariant fr.variant (Backend.Frame.new region.size))).payload.primitives)] }) ∧
    (∀ pt : Point, pt.inRegion ⟨region.x, region.y⟩ region.size = false →
      Prim.mayPaint pt (Prim.clip ⟨region.x, region.y⟩ region.size
        (Prim.group (Script.run body
          (Frame.ofVariant fr.variant (Backend.Frame.new region.size))).payload.primitives)) = false) := by
  have hofv := Frame.variant_payload_ofVariant fr.variant (Backend.Frame.new region.size)
  refine ⟨hofv.1, by rw [hofv.2]; rfl, ?_, ?_⟩
  · rw [Frame.with_clip_run]
    have hsize : (Script.run body
        (Frame.ofVariant fr.variant (Backend.Frame.new region.size))).payload.size =
        region.size :=
      ((Script.run_preserves body
        (Frame.ofVariant fr.variant (Backend.Frame.new region.size))).2.2.trans
          (by rw [hofv.2]; rfl))
    simp only [Script.run, Backend.Frame.clip, Backend.Frame.into_primitive]
    rw [hsize]
  · intro pt hpt
    simp [Prim.mayPaint, hpt]

/-- C4 witness: on a concrete Wgpu frame, region and drawing closure, the
sub-frame has the region's size and variant, the composite lands at the
region's origin, and a concrete point outside the region cannot be painted
by the composite. -/
theorem with_clip_spec_witness :
    (Frame.ofVariant (Frame.Wgpu (Backend.Frame.new ⟨100, 100⟩)).variant
        (Backend.Frame.new (Rectangle.size ⟨10, 20, 30, 40⟩))).variant =
      (Frame.Wgpu (Backend.Frame.new ⟨100, 100⟩)).variant ∧
    (Frame.ofVariant (Frame.Wgpu (Backend.Frame.new ⟨100, 100⟩)).variant
        (Backend.Frame.new (Rectangle.size ⟨10, 20, 30, 40⟩))).payload.size =
      Rectangle.size ⟨10, 20, 30, 40⟩ ∧
    (Frame.Wgpu (Backend.Frame.new ⟨100, 100⟩)).with_clip ⟨10, 20, 30, 40⟩
        (Script.run (Script.fillRect ⟨0, 0⟩ ⟨5, 5⟩ ⟨7⟩)) =
      Except.ok (Frame.ofVariant (Frame.Wgpu (Backend.Frame.new ⟨100, 100⟩)).variant
        { (Frame.Wgpu (Backend.Frame.new ⟨100, 100⟩)).payload with primitives :=
            (Frame.Wgpu (Backend.Frame.new ⟨100, 100⟩)).payload.primitives ++
            [Prim.clip ⟨10, 20⟩ (Rectangle.size ⟨10, 20, 30, 40⟩)
              (Prim.group (Script.run (Script.fillRect ⟨0, 0⟩ ⟨5, 5⟩ ⟨7⟩)
                (Frame.ofVariant (Frame.Wgpu (Backend.Frame.new ⟨100, 100⟩)).variant
                  (Backend.Frame.new
                    (Rectangle.size ⟨10, 20, 30, 40⟩)))).payload.primitives)] }) ∧
    Prim.mayPaint ⟨0, 0⟩ (Prim.clip ⟨10, 20⟩ (Rectangle.size ⟨10, 20, 30, 40⟩)
      (Prim.group (Script.run (Script.fillRect ⟨0, 0⟩ ⟨5, 5⟩ ⟨7⟩)
        (Frame.ofVariant (Frame.Wgpu (Backend.Frame.new ⟨100, 100⟩)).variant
          (Backend.Frame.new (Rectangle.size ⟨10, 20, 30, 40⟩)))).payload.primitives)) =
      false := by
  have h := with_clip_spec (Frame.Wgpu (Backend.Frame.new ⟨100, 100⟩)) ⟨10, 20, 30, 40⟩
    (Script.fillRect ⟨0, 0⟩ ⟨5, 5⟩ ⟨7⟩)
  exact ⟨h.1, h.2.1, h.2.2.1, h.2.2.2 ⟨0, 0⟩ (by decide)⟩

/-- C5 — layer and transformation scoping: `with_layer` starts a layer on
the active variant (stashing the accumulated primitives and running the
closure against a renderer of the same variant), and when the closure
preserves the active variant it ends the layer on that variant, compositing
the layer's output against `bounds`; if the closure leaves the renderer in
the other variant the second match hits `unreachable!` and the call panics
instead of continuing. `with_transformation` behaves analogously, ending the
scope by applying the transformation. -/
theorem with_layer_transformation_scope (self : Renderer) (bounds : Rectangle)
    (transformation : Transformation) (f : Renderer → Renderer) :
    ((f (Renderer.ofVariant self.variant ⟨[]⟩)).variant = self.variant →
      self.with_layer bounds f = DrawResult.ok (Renderer.ofVariant self.variant
        ((f (Renderer.ofVariant self.variant ⟨[]⟩)).payload.end_layer
          self.payload.primitives bounds))) ∧
    ((f (Renderer.ofVariant self.variant ⟨[]⟩)).variant ≠ self.variant →
      self.with_layer bounds f =
        DrawResult.panicked (f (Renderer.ofVariant self.variant ⟨[]⟩))) ∧
    ((f (Renderer.ofVariant self.variant ⟨[]⟩)).variant = self.variant →
      self.with_transformation transformation f =
        DrawResult.ok (Renderer.ofVariant self.variant
          ((f (Renderer.ofVariant self.variant ⟨[]⟩)).payload.end_transformation
            self.payload.primitives transformation))) ∧
    ((f (Renderer.ofVariant self.variant ⟨[]⟩)).variant ≠ self.variant →
      self.with_transformation transformation f =
        DrawResult.panicked (f (Renderer.ofVariant self.variant ⟨[]⟩))) := by
  cases self with
  | TinySkia renderer =>
      cases hf : f (Renderer.TinySkia ⟨[]⟩) with
      | TinySkia r2 =>
          refine ⟨fun _ => ?_, fun hne => absurd ?_ hne, fun _ => ?_, fun hne => absurd ?_ hne⟩ <;>
            simp [Renderer.with_layer, Renderer.with_transformation, Renderer.ofVariant,
              Renderer.variant, Renderer.payload, Backend.Renderer.start_layer,
              Backend.Renderer.start_transformation, hf]
      | Wgpu r2 =>
          refine ⟨fun heq => ?_, fun _ => ?_, fun heq => ?_, fun _ => ?_⟩
          · rw [show Renderer.ofVariant (Renderer.TinySkia renderer).variant ⟨[]⟩ =
              Renderer.TinySkia ⟨[]⟩ from rfl, hf] at heq
            simp [Renderer.variant] at heq
          · simp [Renderer.with_layer, Renderer.ofVariant, Renderer.variant,
              Backend.Renderer.start_layer, hf]
          · rw [show Renderer.ofVariant (Renderer.TinySkia renderer).variant ⟨[]⟩ =
              Renderer.TinySkia ⟨[]⟩ from rfl, hf] at heq
            simp [Renderer.variant] at heq
          · simp [Renderer.with_transformation, Renderer.ofVariant, Renderer.variant,
              Backend.Renderer.start_transformation, hf]
  | Wgpu renderer =>
      cases hf : f (Renderer.Wgpu ⟨[]⟩) with
      | Wgpu r2 =>
          refine ⟨fun _ => ?_, fun hne => absurd ?_ hne, fun _ => ?_, fun hne => absurd ?_ hne⟩ <;>
            simp [Renderer.with_layer, Renderer.with_transformation, Renderer.ofVariant,
              Renderer.variant, Renderer.payload, Backend.Renderer.start_layer,
              Backend.Renderer.start_transformation, hf]
      | TinySkia r2 =>
          refine ⟨fun heq => ?_, fun _ => ?_, fun heq => ?_, fun _ => ?_⟩
          · rw [show Renderer.ofVariant (Renderer.Wgpu renderer).variant ⟨[]⟩ =
              Renderer.Wgpu ⟨[]⟩ from rfl, hf] at heq
            simp [Renderer.variant] at heq
          · simp [Renderer.with_layer, Renderer.ofVariant, Renderer.variant,
              Backend.Renderer.start_layer, hf]
          · rw [show Renderer.ofVariant (Renderer.Wgpu renderer).variant ⟨[]⟩ =
              Renderer.Wgpu ⟨[]⟩ from rfl, hf] at heq
            simp [Renderer.variant] at heq
          · simp [Renderer.with_transformation, Renderer.ofVariant, Renderer.variant,
              Backend.Renderer.start_transformation, hf]

/-- C5 witness: concrete scopes on a TinySkia renderer — a variant-preserving
closure composites its output against the bounds (respectively under the
transformation), a variant-swapping closure makes both scopes panic. -/
theorem with_layer_transformation_scope_witness :
    (Renderer.TinySkia ⟨[Prim.quad ⟨1⟩ ⟨1⟩]⟩).with_layer ⟨0, 0, 50, 50⟩
        (fun r => r.fill_quad ⟨2⟩ ⟨2⟩) =
      DrawResult.ok (Renderer.TinySkia ⟨[Prim.quad ⟨1⟩ ⟨1⟩,
        Prim.clipRect ⟨0, 0, 50, 50⟩ (Prim.group [Prim.quad ⟨2⟩ ⟨2⟩])]⟩) ∧
    (Renderer.TinySkia ⟨[Prim.quad ⟨1⟩ ⟨1⟩]⟩).with_layer ⟨0, 0, 50, 50⟩
        (fun _ => Renderer.Wgpu ⟨[]⟩) =
      DrawResult.panicked (Renderer.Wgpu ⟨[]⟩) ∧
    (Renderer.TinySkia ⟨[Prim.quad ⟨1⟩ ⟨1⟩]⟩).with_transformation ⟨5⟩
        (fun r => r.fill_quad ⟨2⟩ ⟨2⟩) =
      DrawResult.ok (Renderer.TinySkia ⟨[Prim.quad ⟨1⟩ ⟨1⟩,
        Prim.transformed ⟨5⟩ (Prim.group [Prim.quad ⟨2⟩ ⟨2⟩])]⟩) ∧
    (Renderer.TinySkia ⟨[Prim.quad ⟨1⟩ ⟨1⟩]⟩).with_transformation ⟨5⟩
        (fun _ => Renderer.Wgpu ⟨[]⟩) =
      DrawResult.panicked (Renderer.Wgpu ⟨[]⟩) :=
  ⟨(with_layer_transformation_scope (Renderer.TinySkia ⟨[Prim.quad ⟨1⟩ ⟨1⟩]⟩)
      ⟨0, 0, 50, 50⟩ ⟨5⟩ (fun r => r.fill_quad ⟨2⟩ ⟨2⟩)).1 (by decide),
   (with_layer_transformation_scope (Renderer.TinySkia ⟨[Prim.quad ⟨1⟩ ⟨1⟩]⟩)
      ⟨0, 0, 50, 50⟩ ⟨5⟩ (fun _ => Renderer.Wgpu ⟨[]⟩)).2.1 (by decide),
   (with_layer_transformation_scope (Renderer.TinySkia ⟨[Prim.quad ⟨1⟩ ⟨1⟩]⟩)
      ⟨0, 0, 50, 50⟩ ⟨5⟩ (fun r => r.fill_quad ⟨2⟩ ⟨2⟩)).2.2.1 (by decide),
   (with_layer_transformation_scope (Renderer.TinySkia ⟨[Prim.quad ⟨1⟩ ⟨1⟩]⟩)
      ⟨0, 0, 50, 50⟩ ⟨5⟩ (fun _ => Renderer.Wgpu ⟨[]⟩)).2.2.2 (by decide)⟩

/-- C8 — variant preservation across the lifecycle: every modelled delegated
operation dispatches to the backend state of the currently active variant
and leaves the variant unchanged, and `into_geometry` consumes the frame
into a `Geometry` of the same variant carrying the finished primitive. -/
theorem variant_preservation :
    (∀ (fr : Frame) (path : Path) (style : Fill),
      (fr.fill path style).variant = fr.variant ∧
      (fr.fill path style).payload = fr.payload.fill path style) ∧
    (∀ (fr : Frame) (topLeft : Point) (s : Size) (style : Fill),
      (fr.fill_rectangle topLeft s style).variant = fr.variant ∧
      (fr.fill_rectangle topLeft s style).payload = fr.payload.fill_rectangle topLeft s style) ∧
    (∀ (fr : Frame) (path : Path) (style : Stroke),
      (fr.stroke path style).variant = fr.variant ∧
      (fr.stroke path style).payload = fr.payload.stroke path style) ∧
    (∀ (fr : Frame) (text : Text),
      (fr.fill_text text).variant = fr.variant ∧
      (fr.fill_text text).payload = fr.payload.fill_text text) ∧
    (∀ (fr : Frame) (v : Vector),
      (fr.translate v).variant = fr.variant ∧
      (fr.translate v).payload = fr.payload.translate v) ∧
    (∀ (fr : Frame) (angle : Scalar),
      (fr.rotate angle).variant = fr.variant ∧
      (fr.rotate angle).payload = fr.payload.rotate angle) ∧
    (∀ (fr : Frame) (factor : Scalar),
      (fr.scale factor).variant = fr.variant ∧
      (fr.scale factor).payload = fr.payload.scale factor) ∧
    (∀ (fr : Frame) (v : Vector),
      (fr.scale_nonuniform v).variant = fr.variant ∧
      (fr.scale_nonuniform v).payload = fr.payload.scale_nonuniform v) ∧
    (∀ fr : Frame,
      fr.push_transform.variant = fr.variant ∧
      fr.push_transform.payload = fr.payload.push_transform) ∧
    (∀ fr : Frame,
      fr.pop_transform.variant = fr.variant ∧
      fr.pop_transform.payload = fr.payload.pop_transform) ∧
    (∀ fr : Frame,
      fr.into_geometry.variant = fr.variant ∧
      fr.into_geometry.payload = fr.payload.into_primitive) ∧
    (∀ (r : Renderer) (q : Quad) (b : Background),
      (r.fill_quad q b).variant = r.variant ∧
      (r.fill_quad q b).payload = r.payload.fill_quad q b) ∧
    (∀ r : Renderer,
      r.clear.variant = r.variant ∧ r.clear.payload = r.payload.clear) ∧
    (∀ (r : Renderer) (m : Mesh), (r.draw_mesh m).1.variant = r.variant) ∧
    (∀ (r : Renderer) (bounds : Rectangle) (p : PipelinePrimitive),
      (r.draw_pipeline_primitive bounds p).1.variant = r.variant) :=
  ⟨fun fr _ _ => by cases fr <;> exact ⟨rfl, rfl⟩,
   fun fr _ _ _ => by cases fr <;> exact ⟨rfl, rfl⟩,
   fun fr _ _ => by cases fr <;> exact ⟨rfl, rfl⟩,
   fun fr _ => by cases fr <;> exact ⟨rfl, rfl⟩,
   fun fr _ => by cases fr <;> exact ⟨rfl, rfl⟩,
   fun fr _ => by cases fr <;> exact ⟨rfl, rfl⟩,
   fun fr _ => by cases fr <;> exact ⟨rfl, rfl⟩,
   fun fr _ => by cases fr <;> exact ⟨rfl, rfl⟩,
   fun fr => by cases fr <;> exact ⟨rfl, rfl⟩,
   fun fr => by cases fr <;> exact ⟨rfl, rfl⟩,
   fun fr => by cases fr <;> exact ⟨rfl, rfl⟩,
   fun r _ _ => by cases r <;> exact ⟨rfl, rfl⟩,
   fun r => by cases r <;> exact ⟨rfl, rfl⟩,
   fun r _ => by cases r <;> rfl,
   fun r _ _ => by cases r <;> rfl⟩

/-- C10 — `with_save` performs no variant check: its trailing `pop_transform`
is dispatched on whatever variant the frame holds after the closure runs.
For a closure that replaces the frame with one of the other variant,
`with_save` returns normally (no `unreachable!` exists on its path): the
push was issued to the original backend frame and the pop to the closure's
replacement frame. By contrast, the same closure makes `with_clip` hit its
`unreachable!` arm. -/
theorem with_save_no_variant_check (tf tf2 wf : Backend.Frame) (g g2 : Frame → Frame)
    (region : Rectangle) (hg : ∀ x, g x = Frame.Wgpu wf)
    (hg2 : ∀ x, g2 x = Frame.TinySkia tf2) :
    ((Frame.TinySkia tf).with_save g = Frame.Wgpu wf.pop_transform ∧
     ((Frame.TinySkia tf).with_save g).variant ≠ (Frame.TinySkia tf).variant ∧
     (Frame.TinySkia tf).with_clip region g = Except.error "unreachable") ∧
    ((Frame.Wgpu wf).with_save g2 = Frame.TinySkia tf2.pop_transform ∧
     ((Frame.Wgpu wf).with_save g2).variant ≠ (Frame.Wgpu wf).variant ∧
     (Frame.Wgpu wf).with_clip region g2 = Except.error "unreachable") := by
  constructor
  · refine ⟨?_, ?_, ?_⟩
    · unfold Frame.with_save
      rw [hg]
      rfl
    · unfold Frame.with_save
      rw [hg]
      simp [Frame.pop_transform, Frame.variant]
    · simp [Frame.with_clip, hg]
  · refine ⟨?_, ?_, ?_⟩
    · unfold Frame.with_save
      rw [hg2]
      rfl
    · unfold Frame.with_save
      rw [hg2]
      simp [Frame.pop_transform, Frame.variant]
    · simp [Frame.with_clip, hg2]

/-- C10 witness: concrete variant-swapping closures on concrete frames. -/
theorem with_save_no_variant_check_witness :
    ((Frame.TinySkia (Backend.Frame.new ⟨100, 100⟩)).with_save
        (fun _ => Frame.Wgpu (Backend.Frame.new ⟨50, 50⟩)) =
      Frame.Wgpu (Backend.Frame.new ⟨50, 50⟩).pop_transform ∧
     ((Frame.TinySkia (Backend.Frame.new ⟨100, 100⟩)).with_save
        (fun _ => Frame.Wgpu (Backend.Frame.new ⟨50, 50⟩))).variant ≠
      (Frame.TinySkia (Backend.Frame.new ⟨100, 100⟩)).variant ∧
     (Frame.TinySkia (Backend.Frame.new ⟨100, 100⟩)).with_clip ⟨0, 0, 10, 10⟩
        (fun _ => Frame.Wgpu (Backend.Frame.new ⟨50, 50⟩)) =
      Except.error "unreachable") ∧
    ((Frame.Wgpu (Backend.Frame.new ⟨50, 50⟩)).with_save
        (fun _ => Frame.TinySkia (Backend.Frame.new ⟨100, 100⟩)) =
      Frame.TinySkia (Backend.Frame.new ⟨100, 100⟩).pop_transform ∧
     ((Frame.Wgpu (Backend.Frame.new ⟨50, 50⟩)).with_save
        (fun _ => Frame.TinySkia (Backend.Frame.new ⟨100, 100⟩))).variant ≠
      (Frame.Wgpu (Backend.Frame.new ⟨50, 50⟩)).variant ∧
     (Frame.Wgpu (Backend.Frame.new ⟨50, 50⟩)).with_clip ⟨0, 0, 10, 10⟩
        (fun _ => Frame.TinySkia (Backend.Frame.new ⟨100, 100⟩)) =
      Except.error "unreachable") :=
  with_save_no_variant_check (Backend.Frame.new ⟨100, 100⟩)
    (Backend.Frame.new ⟨100, 100⟩) (Backend.Frame.new ⟨50, 50⟩)
    (fun _ => Frame.Wgpu (Backend.Frame.new ⟨50, 50⟩))
    (fun _ => Frame.TinySkia (Backend.Frame.new ⟨100, 100⟩))
    ⟨0, 0, 10, 10⟩ (fun _ => rfl) (fun _ => rfl)

end Iced
